import Mathlib

/-!
Shallow embedding of the IRT-based Computer Adaptive Testing engine
(`src/services/app/ai_services/adaptive_assessment.py`) and verification of
the specified properties of its psychometric model and session lifecycle.

Real-number arithmetic of the Python source (IEEE doubles) is idealised as
exact real arithmetic (`ℝ`, `Real.exp`, `Real.sqrt`).  The one float
phenomenon the source handles explicitly -- `math.exp` raising
`OverflowError` when its result exceeds the largest double -- is modelled by
an explicit threshold on the exponent (`expOverflowBound`, the natural log
of the largest IEEE double): `math.exp x` raises exactly when
`expOverflowBound < x`, and the source's `except` handler returns `0.5`.
-/

/-- Natural logarithm of the largest IEEE-754 double: `math.exp x` raises
`OverflowError` precisely when `expOverflowBound < x`. -/
noncomputable def expOverflowBound : ℝ := 709.782712893384

/-- `ItemResponseTheory.probability_correct`: 3PL model
`P = c + (1-c) / (1 + exp (-a*(theta-b)))`, with the source's
`except (OverflowError, ZeroDivisionError): return 0.5` fallback modelled
by the overflow threshold on the exponent (the denominator `1 + exp _` is
never zero, so only the overflow arm of the handler is reachable). -/
noncomputable def probability_correct (ability difficulty : ℝ)
    (discrimination : ℝ := 1) (guessing : ℝ := 0) : ℝ :=
  if expOverflowBound < -discrimination * (ability - difficulty) then 0.5
  else guessing + (1 - guessing) /
    (1 + Real.exp (-discrimination * (ability - difficulty)))

/-- `ItemResponseTheory.information_function`: Fisher information of a 3PL
item.  The source's bare `except: return 0.0` catches only the
`ZeroDivisionError` from `p * q = 0`; Lean's convention `x / 0 = 0` yields
the same value `0.0` on that path, so no separate branch is needed. -/
noncomputable def information_function (ability difficulty : ℝ)
    (discrimination : ℝ := 1) (guessing : ℝ := 0) : ℝ :=
  let p := probability_correct ability difficulty discrimination guessing
  let q := 1 - p
  if p ≤ guessing ∨ 1 ≤ p ∨ q ≤ 0 then 0
  else (discrimination * p * q / (1 - guessing)) ^ 2 / (p * q)

/-- One element of the `responses` list of a session: the source appends the
tuple `(question.difficulty, is_correct, question.discrimination)` -- three
components, in this order (the guessing parameter is not recorded). -/
structure ResponseRecord where
  difficulty : ℝ
  correct : Bool
  discrimination : ℝ

/-- The accumulation loop body of `estimate_ability`: one pass over the
responses adding first/second log-likelihood derivative contributions,
skipping responses with `p ≤ 0.001` or `q ≤ 0.001`
(source comment: "Avoid division by zero"). -/
noncomputable def derivatives (ability : ℝ) (responses : List ResponseRecord) : ℝ × ℝ :=
  responses.foldl (fun acc r =>
    let p := probability_correct ability r.difficulty r.discrimination 0
    let q := 1 - p
    if 0.001 < p ∧ 0.001 < q then
      if r.correct then
        (acc.1 + r.discrimination * q,
         acc.2 - r.discrimination * r.discrimination * p * q)
      else
        (acc.1 - r.discrimination * p,
         acc.2 - r.discrimination * r.discrimination * p * q)
    else acc) (0, 0)

/-- The Newton-Raphson loop of `estimate_ability` (`for iteration in range(10)`),
with both early exits: no update when the second derivative's magnitude is
at most `0.001`, and exit after an update whose magnitude is below `0.001`. -/
noncomputable def newtonLoop : ℕ → ℝ → List ResponseRecord → ℝ
  | 0, ability, _ => ability
  | fuel + 1, ability, responses =>
    let ds := derivatives ability responses
    if 0.001 < |ds.2| then
      let delta := ds.1 / ds.2
      if |delta| < 0.001 then ability - delta
      else newtonLoop fuel (ability - delta) responses
    else ability

/-- Total Fisher information summed over the responses at a given ability
(the `information = sum(...)` step of `estimate_ability`; the source passes
only `(ability, difficulty, discrimination)`, so `guessing = 0` here). -/
noncomputable def totalInformation (ability : ℝ) (responses : List ResponseRecord) : ℝ :=
  (responses.map (fun r =>
    information_function ability r.difficulty r.discrimination 0)).sum

/-- `ItemResponseTheory.estimate_ability`: Newton-Raphson MLE with at most 10
iterations, returning `(ability, standard_error)`.  The outer `except` of the
source is unreachable in exact real arithmetic (the only division inside the
loop has a divisor of magnitude above `0.001`, and `sqrt` is applied to a
positive argument). -/
noncomputable def estimate_ability (responses : List ResponseRecord)
    (initial_ability : ℝ := 0) : ℝ × ℝ :=
  match responses with
  | [] => (initial_ability, 2)
  | _ :: _ =>
    let ability := newtonLoop 10 initial_ability responses
    let information := totalInformation ability responses
    (ability, if 0 < information then 1 / Real.sqrt information else 2)

/-- `QuestionItem`: a calibrated question with IRT parameters and usage
counters (the `content`/`options` payload is carried but never branched on). -/
structure QuestionItem where
  item_id : String
  content : String
  options : List String
  correct_answer : ℤ
  difficulty : ℝ
  discrimination : ℝ
  guessing : ℝ
  subject : String
  topic : String
  times_used : ℕ
  times_correct : ℕ
  avg_response_time : ℝ

/-- `QuestionItem.update_statistics`: increments `times_used`, increments
`times_correct` on a correct answer, and performs the online running-average
update of `avg_response_time`. -/
noncomputable def update_statistics (q : QuestionItem) (correct : Bool)
    (response_time : ℝ) : QuestionItem :=
  let times_used := q.times_used + 1
  { q with
    times_used := times_used
    times_correct := if correct then q.times_correct + 1 else q.times_correct
    avg_response_time :=
      if times_used = 1 then response_time
      else (q.avg_response_time * ((times_used : ℝ) - 1) + response_time) /
        (times_used : ℝ) }

/-- A sequence of `update_statistics` calls (correctness, response time). -/
noncomputable def applyUpdates (q : QuestionItem) (l : List (Bool × ℝ)) : QuestionItem :=
  l.foldl (fun acc p => update_statistics acc p.1 p.2) q

/-- The engine's `question_pools` dictionary: subject to ordered item list. -/
abbrev Pools := List (String × List QuestionItem)

/-- Dictionary lookup `self.question_pools[subject]`.  Sessions only ever
hold subjects present in the bank (`create_adaptive_assessment` guarantees
this), so the `[]` default of this total lookup is never exercised. -/
def poolOf (pools : Pools) (subject : String) : List QuestionItem :=
  match pools with
  | [] => []
  | (s, qs) :: rest => if s = subject then qs else poolOf rest subject

/-- In-place mutation of one item of one subject's pool, as a functional
update (the Python source mutates the shared `QuestionItem` object). -/
def updatePools (pools : Pools) (subject question_id : String)
    (f : QuestionItem → QuestionItem) : Pools :=
  pools.map (fun p =>
    if p.1 = subject then
      (p.1, p.2.map (fun q => if q.item_id = question_id then f q else q))
    else p)

/-- An assessment session (`assessment_session` dictionary of the source).
Timestamps (`start_time`, `end_time`, `duration_minutes`) are outside the
claims and omitted. -/
structure Session where
  assessment_id : String
  user_id : String
  subject : String
  current_ability : ℝ
  standard_error : ℝ
  responses : List ResponseRecord
  questions_asked : List String
  current_question_index : ℕ
  is_complete : Bool

/-- Typed error kinds of the engine (the source raises `ValueError` with a
distinguishing message for each; the spec names them as shown here). -/
inductive AssessError where
  | unknownSubject
  | itemNotFound
  | noItemsAvailable
  | assessmentComplete
deriving DecidableEq

/-- CAT parameter `self.min_questions = 5`. -/
def minQuestions : ℕ := 5

/-- CAT parameter `self.max_questions = 30`. -/
def maxQuestions : ℕ := 30

/-- CAT parameter `self.precision_threshold = 0.3`. -/
noncomputable def precisionThreshold : ℝ := 0.3

/-- The candidate list of `_select_next_question`: items of the session's
subject whose id is not among `questions_asked`. -/
def availableQuestions (pools : Pools) (session : Session) : List QuestionItem :=
  (poolOf pools session.subject).filter
    (fun q => !(session.questions_asked.contains q.item_id))

/-- The selection loop of `_select_next_question`: starting from
`best_question = None, max_information = 0`, replace the running best only
on a strictly greater information value. -/
noncomputable def selectLoop (ability : ℝ) (qs : List QuestionItem) :
    Option QuestionItem × ℝ :=
  qs.foldl (fun acc q =>
    let info := information_function ability q.difficulty q.discrimination q.guessing
    if acc.2 < info then (some q, info) else acc) (none, 0)

/-- `AdaptiveAssessmentEngine._select_next_question`: maximum-information item
selection with fallback to the first available question, recording the chosen
id in `questions_asked` and bumping `current_question_index`; raises
("No more questions available") when the candidate list is empty. -/
noncomputable def select_next_question (pools : Pools) (session : Session) :
    Except AssessError (Session × QuestionItem) :=
  match availableQuestions pools session with
  | [] => .error .noItemsAvailable
  | q0 :: _ =>
    let best :=
      match (selectLoop session.current_ability (availableQuestions pools session)).1 with
      | none => q0
      | some q => q
    .ok ({ session with
            questions_asked := session.questions_asked ++ [best.item_id]
            current_question_index := session.current_question_index + 1 },
         best)

/-- `AdaptiveAssessmentEngine._should_continue_assessment`: min-questions
floor, then max-questions cap, then the precision threshold. -/
noncomputable def should_continue_assessment (session : Session) : Bool :=
  if session.responses.length < minQuestions then true
  else if maxQuestions ≤ session.responses.length then false
  else if session.standard_error ≤ precisionThreshold then false
  else true

/-- The `if response_time: question.update_statistics(...)` step of
`submit_answer` -- Python truthiness: `None` and `0.0` skip the statistics
update, any other value applies it to the answered item. -/
noncomputable def poolsAfterSubmit (pools : Pools) (subject question_id : String)
    (is_correct : Bool) (response_time : Option ℝ) : Pools :=
  match response_time with
  | none => pools
  | some t =>
    if t = 0 then pools
    else updatePools pools subject question_id
      (fun q => update_statistics q is_correct t)

/-- The response-recording and re-estimation step of `submit_answer`:
appends `(difficulty, is_correct, discrimination)` to `responses` and stores
the re-estimated ability and standard error. -/
noncomputable def sessionAfterEstimate (session : Session)
    (question : QuestionItem) (is_correct : Bool) : Session :=
  let responses' := session.responses ++
    [⟨question.difficulty, is_correct, question.discrimination⟩]
  let est := estimate_ability responses' session.current_ability
  { session with
    responses := responses'
    current_ability := est.1
    standard_error := est.2 }

/-- `AdaptiveAssessmentEngine.submit_answer` for a given session: the result
is the (possibly updated) question pools, the session as it stands when the
call returns or raises (Python mutates the stored session in place, so
mutations made before a raise persist), and either the correctness outcome
or the raised error. -/
noncomputable def submit_answer (pools : Pools) (session : Session)
    (question_id : String) (selected_answer : ℤ) (response_time : Option ℝ) :
    Pools × Session × Except AssessError Bool :=
  if session.is_complete then (pools, session, .error .assessmentComplete)
  else
    match (poolOf pools session.subject).find? (fun q => q.item_id == question_id) with
    | none => (pools, session, .error .itemNotFound)
    | some question =>
      let is_correct : Bool := selected_answer == question.correct_answer
      let pools' := poolsAfterSubmit pools session.subject question_id
        is_correct response_time
      let session' := sessionAfterEstimate session question is_correct
      if should_continue_assessment session' then
        match select_next_question pools' session' with
        | .ok (session'', _) => (pools', session'', .ok is_correct)
        | .error e => (pools', session', .error e)
      else
        (pools', { session' with is_complete := true }, .ok is_correct)

/-- `AdaptiveAssessmentEngine.create_adaptive_assessment` (for a fixed
starting ability; `_get_starting_ability` is a pure lookup in the caller's
context and outside the claims): resolves the subject with the
fallback-to-first-available behaviour, initialises the session with
`standard_error = 2.0` and empty histories, and selects the first question. -/
noncomputable def create_adaptive_assessment (pools : Pools)
    (user_id subject : String) (starting_ability : ℝ) :
    Except AssessError (Session × QuestionItem) :=
  match (if (pools.map Prod.fst).contains subject then some subject
         else (pools.map Prod.fst).head?) with
  | none => .error .unknownSubject
  | some subj =>
    let session : Session := {
      assessment_id := "assessment_" ++ user_id
      user_id := user_id
      subject := subj
      current_ability := starting_ability
      standard_error := 2
      responses := []
      questions_asked := []
      current_question_index := 0
      is_complete := false }
    select_next_question pools session

/-- The session-shape invariant that actually holds after every successful
engine operation: one more asked item than recorded responses while the
session is open, equality once it is complete. -/
def sessionInvariant (s : Session) : Prop :=
  s.questions_asked.length = s.responses.length + (if s.is_complete then 0 else 1)

/-- Reference definition following the words of claim C1: each iteration
accumulates the first and second log-likelihood derivative of every response
in the list (`+a*q` / `-a*p` for a correct / incorrect response, `-a^2*p*q`
for the curvature, with `p` the 2PL probability at the current ability) --
with no per-response skipping. -/
noncomputable def gradContributionSpec (ability : ℝ) (r : ResponseRecord) : ℝ × ℝ :=
  let p := probability_correct ability r.difficulty r.discrimination 0
  let q := 1 - p
  if r.correct then
    (r.discrimination * q, -(r.discrimination * r.discrimination * p * q))
  else
    (-(r.discrimination * p), -(r.discrimination * r.discrimination * p * q))

/-- Reference accumulation over the full response list (claim C1's wording),
written as plain list recursion. -/
noncomputable def derivativesSpec (ability : ℝ) : List ResponseRecord → ℝ × ℝ
  | [] => (0, 0)
  | r :: rest =>
    let g := gradContributionSpec ability r
    let d := derivativesSpec ability rest
    (g.1 + d.1, g.2 + d.2)

/-- Reference Newton-Raphson loop of claim C1: at most the given number of
iterations, early exit without update on a flat second derivative
(magnitude at most 0.001), exit after an update of magnitude below 0.001. -/
noncomputable def newtonLoopSpec : ℕ → ℝ → List ResponseRecord → ℝ
  | 0, ability, _ => ability
  | fuel + 1, ability, responses =>
    let ds := derivativesSpec ability responses
    if 0.001 < |ds.2| then
      let delta := ds.1 / ds.2
      if |delta| < 0.001 then ability - delta
      else newtonLoopSpec fuel (ability - delta) responses
    else ability

/-- The reference estimator of claim C1, exactly as the claim words it:
`(initial_ability, 2.0)` on empty responses, otherwise Newton-Raphson from
`initial_ability` capped at 10 iterations over the full response list, with
standard error `1/sqrt(total information)` when the total is positive and
`2.0` otherwise. -/
noncomputable def estimate_abilitySpec (responses : List ResponseRecord)
    (initial_ability : ℝ := 0) : ℝ × ℝ :=
  match responses with
  | [] => (initial_ability, 2)
  | _ :: _ =>
    let ability := newtonLoopSpec 10 initial_ability responses
    let information := totalInformation ability responses
    (ability, if 0 < information then 1 / Real.sqrt information else 2)

/-- The amended reference accumulation: as `derivativesSpec`, but a response
whose probability `p` at the current ability has `p ≤ 0.001` or
`1 - p ≤ 0.001` contributes nothing to either derivative. -/
noncomputable def derivativesSpecAmended (ability : ℝ) : List ResponseRecord → ℝ × ℝ
  | [] => (0, 0)
  | r :: rest =>
    let p := probability_correct ability r.difficulty r.discrimination 0
    let d := derivativesSpecAmended ability rest
    if 0.001 < p ∧ 0.001 < 1 - p then
      let g := gradContributionSpec ability r
      (g.1 + d.1, g.2 + d.2)
    else d

/-- The amended reference Newton-Raphson loop (same exits as
`newtonLoopSpec`, accumulation with the near-degenerate responses skipped). -/
noncomputable def newtonLoopSpecAmended : ℕ → ℝ → List ResponseRecord → ℝ
  | 0, ability, _ => ability
  | fuel + 1, ability, responses =>
    let ds := derivativesSpecAmended ability responses
    if 0.001 < |ds.2| then
      let delta := ds.1 / ds.2
      if |delta| < 0.001 then ability - delta
      else newtonLoopSpecAmended fuel (ability - delta) responses
    else ability

/-- The amended reference estimator of claim C1: identical to
`estimate_abilitySpec` except that each iteration's accumulation skips
responses with `p ≤ 0.001` or `1 - p ≤ 0.001`. -/
noncomputable def estimate_abilitySpecAmended (responses : List ResponseRecord)
    (initial_ability : ℝ := 0) : ℝ × ℝ :=
  match responses with
  | [] => (initial_ability, 2)
  | _ :: _ =>
    let ability := newtonLoopSpecAmended 10 initial_ability responses
    let information := totalInformation ability responses
    (ability, if 0 < information then 1 / Real.sqrt information else 2)

/-! ### Helper lemmas for the psychometric model -/

/-- Unfolding of `probability_correct` on the non-overflow branch. -/
lemma probability_correct_of_not_overflow {ability difficulty discrimination guessing : ℝ}
    (h : -discrimination * (ability - difficulty) ≤ expOverflowBound) :
    probability_correct ability difficulty discrimination guessing =
      guessing + (1 - guessing) /
        (1 + Real.exp (-discrimination * (ability - difficulty))) := by
  rw [probability_correct, if_neg (not_lt.mpr h)]

/-- Fisher information is nonnegative whenever the guessing parameter is. -/
lemma information_nonneg (ability difficulty discrimination guessing : ℝ)
    (hc : 0 ≤ guessing) :
    0 ≤ information_function ability difficulty discrimination guessing := by
  simp only [information_function]
  split_ifs with h
  · exact le_refl 0
  · push_neg at h
    obtain ⟨h1, _, h3⟩ := h
    have hp : 0 < probability_correct ability difficulty discrimination guessing :=
      lt_of_le_of_lt hc h1
    have hq : 0 < 1 - probability_correct ability difficulty discrimination guessing := by
      linarith
    exact div_nonneg (sq_nonneg _) (mul_pos hp hq).le

/-- Claim C5 (amended): for every input with a nonnegative guessing
parameter, `information_function` returns a value that is at least `0`; and
for every input whatsoever it returns exactly `0.0` in the degenerate
regions `P ≤ guessing`, `P ≥ 1` or `Q = 1 - P ≤ 0`, so the division by
`P * Q` is unreachable there.  (The unrestricted nonnegativity of the
original claim fails for negative guessing values, see the
counterexample.) -/
theorem information_function_nonneg_and_degenerate_zero
    (ability difficulty discrimination guessing : ℝ) :
    (0 ≤ guessing → 0 ≤ information_function ability difficulty discrimination guessing) ∧
    ((probability_correct ability difficulty discrimination guessing ≤ guessing ∨
        1 ≤ probability_correct ability difficulty discrimination guessing ∨
        1 - probability_correct ability difficulty discrimination guessing ≤ 0) →
      information_function ability difficulty discrimination guessing = 0) := by
  refine ⟨fun hc => information_nonneg ability difficulty discrimination guessing hc,
    fun h => ?_⟩
  simp only [information_function]
  rw [if_pos h]

/-- Claim C5 counterexample: at `guessing = -5` (with ability = difficulty,
discrimination 1) the modelled probability is `-2`, no degenerate guard
fires, and the Fisher information evaluates to `1/(-6) < 0` -- so
"for every input, information returns a value ≥ 0" is false as stated. -/
theorem information_function_negative_counterexample :
    information_function 0 0 1 (-5) < 0 := by
  have hp : probability_correct 0 0 1 (-5) = -2 := by
    rw [probability_correct, if_neg]
    · norm_num [Real.exp_zero]
    · rw [expOverflowBound]; norm_num
  simp only [information_function, hp]
  norm_num

/-- Witness for claim C5: the amended theorem applied at concrete inputs --
a nonnegative-guessing input evaluating the first conjunct, and a
`guessing = 1` input (forcing `P = 1`, a degenerate region) evaluating
the second. -/
theorem information_function_nonneg_witness :
    0 ≤ information_function 0 0 1 0 ∧ information_function 0 0 1 1 = 0 := by
  refine ⟨(information_function_nonneg_and_degenerate_zero 0 0 1 0).1 (by norm_num),
    (information_function_nonneg_and_degenerate_zero 0 0 1 1).2 ?_⟩
  right; left
  rw [probability_correct, if_neg]
  · norm_num
  · rw [expOverflowBound]; norm_num

/-- Claim C4 (amended): for fixed item parameters with
`discrimination ≥ 0` and `guessing ∈ [0,1)`, `probability_correct` is
monotonically non-decreasing in ability and bounded in `[guessing, 1]` as
long as the logistic exponent stays within the representable range
(`≤ expOverflowBound`); when the exponent overflows, it returns the `0.5`
fallback instead of raising.  (Unrestricted monotonicity fails across the
overflow boundary, see the counterexample.) -/
theorem probability_correct_monotone_bounded
    (difficulty discrimination guessing : ℝ)
    (ha : 0 ≤ discrimination) (_hc0 : 0 ≤ guessing) (hc1 : guessing < 1) :
    (∀ ability₁ ability₂ : ℝ, ability₁ ≤ ability₂ →
      -discrimination * (ability₁ - difficulty) ≤ expOverflowBound →
      probability_correct ability₁ difficulty discrimination guessing ≤
        probability_correct ability₂ difficulty discrimination guessing) ∧
    (∀ ability : ℝ, -discrimination * (ability - difficulty) ≤ expOverflowBound →
      guessing ≤ probability_correct ability difficulty discrimination guessing ∧
      probability_correct ability difficulty discrimination guessing ≤ 1) ∧
    (∀ ability : ℝ, expOverflowBound < -discrimination * (ability - difficulty) →
      probability_correct ability difficulty discrimination guessing = 0.5) := by
  refine ⟨fun a₁ a₂ h12 hov₁ => ?_, fun a hov => ?_, fun a hov => ?_⟩
  · have hexp : -discrimination * (a₂ - difficulty) ≤
        -discrimination * (a₁ - difficulty) := by nlinarith
    rw [probability_correct_of_not_overflow hov₁,
      probability_correct_of_not_overflow (hexp.trans hov₁)]
    have e1 : (0:ℝ) < 1 + Real.exp (-discrimination * (a₁ - difficulty)) := by
      positivity
    have e2 : Real.exp (-discrimination * (a₂ - difficulty)) ≤
        Real.exp (-discrimination * (a₁ - difficulty)) := Real.exp_le_exp.mpr hexp
    have hnum : (0:ℝ) ≤ 1 - guessing := by linarith
    gcongr
  · rw [probability_correct_of_not_overflow hov]
    have e0 : (0:ℝ) < Real.exp (-discrimination * (a - difficulty)) := Real.exp_pos _
    constructor
    · have : 0 ≤ (1 - guessing) /
          (1 + Real.exp (-discrimination * (a - difficulty))) :=
        div_nonneg (by linarith) (by positivity)
      linarith
    · have hd : (1 - guessing) /
          (1 + Real.exp (-discrimination * (a - difficulty))) ≤ 1 - guessing :=
        div_le_self (by linarith) (by linarith)
      linarith
  · rw [probability_correct, if_pos hov]

/-- Claim C4 counterexample: with `difficulty = 0`, `discrimination = 1`,
`guessing = 0`, ability `-800` trips the exponent overflow (exponent `800`)
and yields the `0.5` fallback, while ability `-1` yields
`1/(1 + e) < 0.5`; since `-800 ≤ -1`, `probability_correct` is not
monotonically non-decreasing in ability over all inputs. -/
theorem probability_correct_monotone_counterexample :
    (-800 : ℝ) ≤ -1 ∧
    probability_correct (-1) 0 1 0 < probability_correct (-800) 0 1 0 := by
  have h800 : probability_correct (-800) 0 1 0 = 0.5 := by
    rw [probability_correct, if_pos]
    rw [expOverflowBound]; norm_num
  have h1 : probability_correct (-1) 0 1 0 = 1 / (1 + Real.exp 1) := by
    rw [probability_correct, if_neg]
    · norm_num
    · rw [expOverflowBound]; norm_num
  have he : (1:ℝ) < Real.exp 1 := by
    have := Real.exp_one_gt_d9; linarith
  refine ⟨by norm_num, ?_⟩
  rw [h800, h1, div_lt_iff₀ (by positivity)]
  nlinarith

/-- Witness for claim C4: the amended theorem applied at
`difficulty = 0, discrimination = 1, guessing = 0` and abilities `0 ≤ 1`,
whose exponents stay below the overflow bound. -/
theorem probability_correct_monotone_witness :
    probability_correct 0 0 1 0 ≤ probability_correct 1 0 1 0 ∧
    (0:ℝ) ≤ probability_correct 0 0 1 0 ∧ probability_correct 0 0 1 0 ≤ 1 := by
  have h := probability_correct_monotone_bounded 0 1 0 (by norm_num) (by norm_num)
    (by norm_num)
  have hov : -(1:ℝ) * (0 - 0) ≤ expOverflowBound := by
    rw [expOverflowBound]; norm_num
  exact ⟨h.1 0 1 (by norm_num) hov, h.2.1 0 hov⟩

/-! ### Concrete sample data for witnesses and counterexamples -/

/-- A freshly created session state (as `create_adaptive_assessment` builds
it before the first selection). -/
noncomputable def sampleSession : Session := {
  assessment_id := "assessment_u1"
  user_id := "u1"
  subject := "math"
  current_ability := 0
  standard_error := 2
  responses := []
  questions_asked := []
  current_question_index := 0
  is_complete := false }

/-- A concrete calibrated item. -/
noncomputable def sampleItem : QuestionItem := {
  item_id := "math_1"
  content := "What is 2 + 2?"
  options := ["3", "4"]
  correct_answer := 1
  difficulty := 0
  discrimination := 1
  guessing := 0.1
  subject := "math"
  topic := "arithmetic"
  times_used := 0
  times_correct := 0
  avg_response_time := 0 }

/-- A second concrete item of the same subject. -/
noncomputable def sampleItem2 : QuestionItem := {
  item_id := "math_2"
  content := "What is 3 * 3?"
  options := ["9", "6"]
  correct_answer := 0
  difficulty := 1
  discrimination := 1
  guessing := 0.1
  subject := "math"
  topic := "arithmetic"
  times_used := 0
  times_correct := 0
  avg_response_time := 0 }

/-! ### Claims C3 and C6 -/

/-- Claim C3: `_should_continue_assessment` returns `False` when at least
`max_questions = 30` responses are recorded, `True` when fewer than
`min_questions = 5` are, and in between returns `False` exactly when the
standard error is at most `precision_threshold = 0.3`; hence a session whose
precision is never reached stops at exactly `max_questions`, and no session
stops before `min_questions`. -/
theorem should_continue_stopping_rule (session : Session) :
    (maxQuestions ≤ session.responses.length →
      should_continue_assessment session = false) ∧
    (session.responses.length < minQuestions →
      should_continue_assessment session = true) ∧
    (minQuestions ≤ session.responses.length →
      session.responses.length < maxQuestions →
      (should_continue_assessment session = false ↔
        session.standard_error ≤ precisionThreshold)) := by
  unfold should_continue_assessment minQuestions maxQuestions
  refine ⟨fun h => ?_, fun h => ?_, fun h1 h2 => ?_⟩
  · rw [if_neg (by omega), if_pos (by omega)]
  · rw [if_pos h]
  · rw [if_neg (by omega), if_neg (by omega)]
    split_ifs with h3 <;> simp [h3]

/-- Witness for claim C3: a session with 6 recorded responses (between the
floor and the cap) and standard error `0.2 ≤ 0.3` stops. -/
theorem should_continue_stopping_rule_witness :
    should_continue_assessment { sampleSession with
      standard_error := 0.2
      responses := List.replicate 6 ⟨0, true, 1⟩ } = false := by
  refine ((should_continue_stopping_rule _).2.2 ?_ ?_).mpr ?_
  · simp [minQuestions]
  · simp [maxQuestions]
  · rw [precisionThreshold]; norm_num

/-- Claim C6: `submit_answer` on a session whose `is_complete` flag is set
fails with the assessment-complete error and leaves everything unchanged:
the pools, the response history, ability, standard error and the asked-item
list are all returned exactly as they were. -/
theorem submit_answer_completed_session_unchanged
    (pools : Pools) (session : Session) (question_id : String)
    (selected_answer : ℤ) (response_time : Option ℝ)
    (h : session.is_complete = true) :
    submit_answer pools session question_id selected_answer response_time =
      (pools, session, .error .assessmentComplete) := by
  simp [submit_answer, h]

/-- Witness for claim C6: submitting against a concrete completed session. -/
theorem submit_answer_completed_session_unchanged_witness :
    submit_answer [("math", [sampleItem])]
        { sampleSession with is_complete := true } "math_1" 1 none =
      ([("math", [sampleItem])], { sampleSession with is_complete := true },
        Except.error AssessError.assessmentComplete) :=
  submit_answer_completed_session_unchanged _ _ _ _ _ rfl

/-! ### Structural lemmas about selection and submission -/

/-- A successful `_select_next_question` only appends the chosen item's id to
`questions_asked` and bumps the question index; responses, ability estimate,
standard error and the completion flag are untouched. -/
lemma select_next_question_preserves {pools : Pools} {session s' : Session}
    {q : QuestionItem}
    (h : select_next_question pools session = .ok (s', q)) :
    s'.responses = session.responses ∧
    s'.current_ability = session.current_ability ∧
    s'.standard_error = session.standard_error ∧
    s'.is_complete = session.is_complete ∧
    s'.questions_asked = session.questions_asked ++ [q.item_id] ∧
    s'.current_question_index = session.current_question_index + 1 := by
  unfold select_next_question at h
  cases hav : availableQuestions pools session with
  | nil => rw [hav] at h; cases h
  | cons q0 rest =>
    rw [hav] at h
    simp only [Except.ok.injEq, Prod.mk.injEq] at h
    obtain ⟨hs, hq⟩ := h
    subst hq
    rw [← hs]
    exact ⟨rfl, rfl, rfl, rfl, rfl, rfl⟩

/-- A failing `_select_next_question` reports the bank-exhausted error: its
only error exit is the empty candidate list. -/
lemma select_next_question_error {pools : Pools} {session : Session}
    {e : AssessError}
    (h : select_next_question pools session = .error e) :
    e = .noItemsAvailable ∧ availableQuestions pools session = [] := by
  unfold select_next_question at h
  cases hav : availableQuestions pools session with
  | nil => rw [hav] at h; cases h; exact ⟨rfl, rfl⟩
  | cons q0 rest => rw [hav] at h; cases h

/-- `sessionAfterEstimate` projection: the appended response history. -/
lemma sessionAfterEstimate_responses (s : Session) (q : QuestionItem) (c : Bool) :
    (sessionAfterEstimate s q c).responses =
      s.responses ++ [⟨q.difficulty, c, q.discrimination⟩] := rfl

/-- `sessionAfterEstimate` projection: the re-estimated ability. -/
lemma sessionAfterEstimate_ability (s : Session) (q : QuestionItem) (c : Bool) :
    (sessionAfterEstimate s q c).current_ability =
      (estimate_ability (s.responses ++ [⟨q.difficulty, c, q.discrimination⟩])
        s.current_ability).1 := rfl

/-- `sessionAfterEstimate` projection: the re-estimated standard error. -/
lemma sessionAfterEstimate_standard_error (s : Session) (q : QuestionItem) (c : Bool) :
    (sessionAfterEstimate s q c).standard_error =
      (estimate_ability (s.responses ++ [⟨q.difficulty, c, q.discrimination⟩])
        s.current_ability).2 := rfl

/-- `sessionAfterEstimate` projection: asked ids are untouched. -/
lemma sessionAfterEstimate_questions_asked (s : Session) (q : QuestionItem) (c : Bool) :
    (sessionAfterEstimate s q c).questions_asked = s.questions_asked := rfl

/-- `sessionAfterEstimate` projection: the completion flag is untouched. -/
lemma sessionAfterEstimate_is_complete (s : Session) (q : QuestionItem) (c : Bool) :
    (sessionAfterEstimate s q c).is_complete = s.is_complete := rfl

/-- Characterisation of `submit_answer` past its two error guards (open
session, item found): the returned session always carries the appended
response record and the freshly estimated ability and standard error; the
returned pools are `poolsAfterSubmit`; and the call either continues (open
result, one more asked id), completes (complete result, asked ids
untouched), or surfaces the selection error (open result, asked ids
untouched). -/
lemma submit_answer_found (pools : Pools) (session : Session)
    (question_id : String) (selected_answer : ℤ) (response_time : Option ℝ)
    (question : QuestionItem)
    (hnc : session.is_complete = false)
    (hfind : (poolOf pools session.subject).find?
        (fun q => q.item_id == question_id) = some question) :
    (submit_answer pools session question_id selected_answer response_time).2.1.responses =
      session.responses ++
        [⟨question.difficulty, selected_answer == question.correct_answer,
          question.discrimination⟩] ∧
    (submit_answer pools session question_id selected_answer response_time).2.1.current_ability =
      (estimate_ability
        (session.responses ++
          [⟨question.difficulty, selected_answer == question.correct_answer,
            question.discrimination⟩]) session.current_ability).1 ∧
    (submit_answer pools session question_id selected_answer response_time).2.1.standard_error =
      (estimate_ability
        (session.responses ++
          [⟨question.difficulty, selected_answer == question.correct_answer,
            question.discrimination⟩]) session.current_ability).2 ∧
    (submit_answer pools session question_id selected_answer response_time).1 =
      poolsAfterSubmit pools session.subject question_id
        (selected_answer == question.correct_answer) response_time ∧
    (((submit_answer pools session question_id selected_answer response_time).2.2 =
        .ok (selected_answer == question.correct_answer) ∧
      ((submit_answer pools session question_id selected_answer response_time).2.1.is_complete =
          false ∧
        (submit_answer pools session question_id selected_answer
            response_time).2.1.questions_asked.length =
          session.questions_asked.length + 1 ∨
       (submit_answer pools session question_id selected_answer response_time).2.1.is_complete =
          true ∧
        (submit_answer pools session question_id selected_answer
            response_time).2.1.questions_asked =
          session.questions_asked)) ∨
     ((submit_answer pools session question_id selected_answer response_time).2.2 =
        .error .noItemsAvailable ∧
      (submit_answer pools session question_id selected_answer response_time).2.1.is_complete =
        false ∧
      (submit_answer pools session question_id selected_answer
          response_time).2.1.questions_asked =
        session.questions_asked)) := by
  simp only [submit_answer, hnc, Bool.false_eq_true, if_false, hfind]
  split
  case isTrue hcont =>
    cases hsel : select_next_question
        (poolsAfterSubmit pools session.subject question_id
          (selected_answer == question.correct_answer) response_time)
        (sessionAfterEstimate session question
          (selected_answer == question.correct_answer)) with
    | ok pair =>
      obtain ⟨s'', q''⟩ := pair
      have hp := select_next_question_preserves hsel
      dsimp only
      rw [hp.1, hp.2.1, hp.2.2.1, hp.2.2.2.1, hp.2.2.2.2.1,
        sessionAfterEstimate_responses, sessionAfterEstimate_ability,
        sessionAfterEstimate_standard_error, sessionAfterEstimate_questions_asked,
        sessionAfterEstimate_is_complete]
      exact ⟨rfl, rfl, rfl, rfl,
        Or.inl ⟨rfl, Or.inl ⟨hnc, by rw [List.length_append, List.length_singleton]⟩⟩⟩
    | error e =>
      have hp := select_next_question_error hsel
      dsimp only
      rw [sessionAfterEstimate_responses, sessionAfterEstimate_ability,
        sessionAfterEstimate_standard_error, sessionAfterEstimate_questions_asked,
        sessionAfterEstimate_is_complete]
      exact ⟨rfl, rfl, rfl, rfl, Or.inr ⟨by rw [hp.1], hnc, rfl⟩⟩
  case isFalse hcont =>
    dsimp only
    rw [show ({ sessionAfterEstimate session question
        (selected_answer == question.correct_answer) with
        is_complete := true } : Session).responses =
      (sessionAfterEstimate session question
        (selected_answer == question.correct_answer)).responses from rfl]
    rw [sessionAfterEstimate_responses]
    exact ⟨rfl, rfl, rfl, rfl, Or.inl ⟨rfl, Or.inr ⟨rfl, rfl⟩⟩⟩

/-! ### Claim C10 -/

/-- The estimator's returned standard error is strictly positive on every
input: `2` on empty input, `1/sqrt(I)` with `I > 0`, or the `2` sentinel. -/
lemma estimate_ability_se_pos (responses : List ResponseRecord) (θ : ℝ) :
    0 < (estimate_ability responses θ).2 := by
  cases responses with
  | nil => rw [estimate_ability]; norm_num
  | cons r rest =>
    rw [estimate_ability]
    dsimp only
    split_ifs with h
    · exact one_div_pos.mpr (Real.sqrt_pos.mpr h)
    · norm_num

/-- Claim C10: a session's standard error stays strictly positive through
every operation -- the estimator returns either `1/sqrt(information)` with
positive information or the `2.0` sentinel, `create_adaptive_assessment`
initialises it to `2.0`, and `submit_answer` (on any session with positive
standard error) returns a session with positive standard error -- so the
`1/standard_error` precision of the assessment report never divides by
zero. -/
theorem standard_error_always_positive
    (pools : Pools) (session : Session) (question_id : String)
    (selected_answer : ℤ) (response_time : Option ℝ) :
    (∀ (responses : List ResponseRecord) (θ : ℝ),
      0 < (estimate_ability responses θ).2) ∧
    (∀ (user_id subject : String) (θ : ℝ) (s : Session) (q : QuestionItem),
      create_adaptive_assessment pools user_id subject θ = .ok (s, q) →
      s.standard_error = 2) ∧
    (0 < session.standard_error →
      0 < (submit_answer pools session question_id selected_answer
        response_time).2.1.standard_error) := by
  refine ⟨fun responses θ => estimate_ability_se_pos responses θ, ?_, ?_⟩
  · intro user_id subject θ s q hok
    unfold create_adaptive_assessment at hok
    cases hsub : (if (pools.map Prod.fst).contains subject then some subject
        else (pools.map Prod.fst).head?) with
    | none => rw [hsub] at hok; cases hok
    | some subj =>
      rw [hsub] at hok
      have hp := select_next_question_preserves hok
      rw [hp.2.2.1]
  · intro hpos
    cases hc : session.is_complete with
    | true =>
      simp only [submit_answer, hc, if_true]
      exact hpos
    | false =>
      cases hfind : (poolOf pools session.subject).find?
          (fun q => q.item_id == question_id) with
      | none =>
        simp only [submit_answer, hc, Bool.false_eq_true, if_false, hfind]
        exact hpos
      | some question =>
        rw [(submit_answer_found pools session question_id selected_answer
          response_time question hc hfind).2.2.1]
        exact estimate_ability_se_pos _ _

/-- Witness for claim C10: submitting an answer on the freshly created
sample session (standard error `2 > 0`) yields a session with positive
standard error. -/
theorem standard_error_always_positive_witness :
    0 < (submit_answer [("math", [sampleItem])] sampleSession "math_1" 1
        none).2.1.standard_error :=
  (standard_error_always_positive [("math", [sampleItem])] sampleSession
    "math_1" 1 none).2.2 (by norm_num [sampleSession])

/-! ### Claim C7 -/

/-- Claim C7 (amended): every `submit_answer` that passes the completion and
item-lookup guards appends to `responses` exactly one record consisting of
the answered item's difficulty, the correctness boolean and the item's
discrimination -- the guessing parameter is NOT part of the stored record --
and then recomputes `(ability, standard_error)` via the Psychometric Model
over the full response history. -/
theorem submit_answer_appends_record_and_reestimates
    (pools : Pools) (session : Session) (question_id : String)
    (selected_answer : ℤ) (response_time : Option ℝ) (question : QuestionItem)
    (hnc : session.is_complete = false)
    (hfind : (poolOf pools session.subject).find?
        (fun q => q.item_id == question_id) = some question) :
    (submit_answer pools session question_id selected_answer response_time).2.1.responses =
      session.responses ++
        [⟨question.difficulty, selected_answer == question.correct_answer,
          question.discrimination⟩] ∧
    ((submit_answer pools session question_id selected_answer response_time).2.1.current_ability,
     (submit_answer pools session question_id selected_answer response_time).2.1.standard_error) =
      estimate_ability
        (session.responses ++
          [⟨question.difficulty, selected_answer == question.correct_answer,
            question.discrimination⟩]) session.current_ability := by
  have h := submit_answer_found pools session question_id selected_answer
    response_time question hnc hfind
  exact ⟨h.1, by rw [h.2.1, h.2.2.1]⟩

/-- Claim C7 counterexample: the stored record is the three-component tuple
`(difficulty, correct, discrimination)` with no guessing entry, and two banks
whose single item differs only in the guessing parameter produce identical
re-estimated ability and standard error -- the records do not carry the
item's guessing parameter into the estimation, contrary to the claim. -/
theorem submit_answer_record_has_no_guessing_counterexample :
    (submit_answer [("math", [sampleItem])] sampleSession "math_1" 1 none).2.1.responses =
      [⟨0, true, 1⟩] ∧
    (submit_answer [("math", [{ sampleItem with guessing := 0.9 }])] sampleSession
        "math_1" 1 none).2.1.current_ability =
      (submit_answer [("math", [sampleItem])] sampleSession "math_1" 1
        none).2.1.current_ability ∧
    (submit_answer [("math", [{ sampleItem with guessing := 0.9 }])] sampleSession
        "math_1" 1 none).2.1.standard_error =
      (submit_answer [("math", [sampleItem])] sampleSession "math_1" 1
        none).2.1.standard_error := by
  have hA := submit_answer_found [("math", [sampleItem])] sampleSession "math_1" 1
    none sampleItem rfl rfl
  have hB := submit_answer_found [("math", [{ sampleItem with guessing := 0.9 }])]
    sampleSession "math_1" 1 none { sampleItem with guessing := 0.9 } rfl rfl
  refine ⟨?_, ?_, ?_⟩
  · rw [hA.1]; rfl
  · rw [hB.2.1, hA.2.1]
  · rw [hB.2.2.1, hA.2.2.1]

/-- Witness for claim C7: the amended theorem applied to a concrete
submission, with the resulting appended record evaluated. -/
theorem submit_answer_appends_record_witness :
    (submit_answer [("math", [sampleItem, sampleItem2])]
        { sampleSession with questions_asked := ["math_1"] } "math_1" 1
        (some 3)).2.1.responses = [⟨0, true, 1⟩] := by
  have h := submit_answer_appends_record_and_reestimates
    [("math", [sampleItem, sampleItem2])]
    { sampleSession with questions_asked := ["math_1"] } "math_1" 1 (some 3)
    sampleItem rfl rfl
  rw [h.1]; rfl

/-! ### Claim C9 -/

/-- `update_statistics` projection: the usage counter increments. -/
lemma update_statistics_times_used (q : QuestionItem) (c : Bool) (t : ℝ) :
    (update_statistics q c t).times_used = q.times_used + 1 := rfl

/-- `update_statistics` projection: the correct counter increments on a
correct answer only. -/
lemma update_statistics_times_correct (q : QuestionItem) (c : Bool) (t : ℝ) :
    (update_statistics q c t).times_correct =
      if c then q.times_correct + 1 else q.times_correct := rfl

/-- `update_statistics` projection: the running-average update. -/
lemma update_statistics_avg (q : QuestionItem) (c : Bool) (t : ℝ) :
    (update_statistics q c t).avg_response_time =
      if q.times_used + 1 = 1 then t
      else (q.avg_response_time * (((q.times_used + 1 : ℕ) : ℝ) - 1) + t) /
        ((q.times_used + 1 : ℕ) : ℝ) := rfl

/-- Folding `update_statistics` over a list of observations starting from a
fresh item: the usage counter counts the observations and the running
average equals the arithmetic mean of the response times. -/
lemma applyUpdates_stats (q : QuestionItem) (hq : q.times_used = 0)
    (l : List (Bool × ℝ)) :
    (applyUpdates q l).times_used = l.length ∧
    (l ≠ [] → (applyUpdates q l).avg_response_time =
      (l.map Prod.snd).sum / l.length) := by
  induction l using List.reverseRecOn with
  | nil => exact ⟨hq, fun h => absurd rfl h⟩
  | append_singleton xs p ih =>
    have hstep : applyUpdates q (xs ++ [p]) =
        update_statistics (applyUpdates q xs) p.1 p.2 := by
      simp [applyUpdates, List.foldl_append]
    obtain ⟨ihlen, ihavg⟩ := ih
    have hlen : (applyUpdates q (xs ++ [p])).times_used = (xs ++ [p]).length := by
      rw [hstep, update_statistics_times_used, ihlen]
      simp
    refine ⟨hlen, fun _ => ?_⟩
    rcases eq_or_ne xs [] with hxs | hxs
    · subst hxs
      rw [hstep, update_statistics_avg, ihlen]
      simp
    · have hpos : 0 < xs.length := List.length_pos.mpr hxs
      rw [hstep, update_statistics_avg, ihlen, ihavg hxs, if_neg (by omega)]
      have hx : (xs.length : ℝ) ≠ 0 := Nat.cast_ne_zero.mpr (by omega)
      rw [List.map_append, List.sum_append, List.length_append]
      push_cast
      field_simp

/-- Claim C9 (amended): `update_statistics` increments `times_used` by one
and `times_correct` by one exactly on a correct answer, and after `k`
updates from a fresh item with response times `t1..tk` the item's
`avg_response_time` is their arithmetic mean; however `submit_answer`
applies this update only when a response time is provided and nonzero
(Python truthiness of `response_time`): with `None` or `0.0` the pools --
and hence all usage counters -- are returned unchanged. -/
theorem submit_answer_updates_statistics
    (pools : Pools) (session : Session) (question_id : String)
    (selected_answer : ℤ) (question : QuestionItem)
    (hnc : session.is_complete = false)
    (hfind : (poolOf pools session.subject).find?
        (fun q => q.item_id == question_id) = some question) :
    (∀ (q : QuestionItem) (c : Bool) (t : ℝ),
      (update_statistics q c t).times_used = q.times_used + 1 ∧
      (update_statistics q c t).times_correct =
        q.times_correct + (if c then 1 else 0)) ∧
    (∀ q : QuestionItem, q.times_used = 0 → ∀ l : List (Bool × ℝ), l ≠ [] →
      (applyUpdates q l).avg_response_time = (l.map Prod.snd).sum / l.length) ∧
    (∀ t : ℝ, t ≠ 0 →
      (submit_answer pools session question_id selected_answer (some t)).1 =
        updatePools pools session.subject question_id
          (fun q => update_statistics q
            (selected_answer == question.correct_answer) t)) ∧
    (submit_answer pools session question_id selected_answer none).1 = pools ∧
    (submit_answer pools session question_id selected_answer (some 0)).1 = pools := by
  refine ⟨fun q c t => ⟨update_statistics_times_used q c t, ?_⟩,
    fun q hq l hl => (applyUpdates_stats q hq l).2 hl, fun t ht => ?_, ?_, ?_⟩
  · rw [update_statistics_times_correct]
    split_ifs <;> simp
  · rw [(submit_answer_found pools session question_id selected_answer (some t)
      question hnc hfind).2.2.2.1]
    simp only [poolsAfterSubmit, if_neg ht]
  · exact (submit_answer_found pools session question_id selected_answer none
      question hnc hfind).2.2.2.1
  · rw [(submit_answer_found pools session question_id selected_answer (some 0)
      question hnc hfind).2.2.2.1]
    simp [poolsAfterSubmit]

/-- Claim C9 counterexample: a `submit_answer` on an open session with a
found item but no response time (`None`) returns the pools -- and therefore
every usage counter -- unchanged: the answered item's `times_used` stays
`0` instead of increasing by one. -/
theorem submit_answer_counters_unchanged_counterexample :
    ({ sampleSession with questions_asked := ["math_1"] } : Session).is_complete
        = false ∧
    (submit_answer [("math", [sampleItem, sampleItem2])]
        { sampleSession with questions_asked := ["math_1"] } "math_1" 1 none).1 =
      [("math", [sampleItem, sampleItem2])] ∧
    sampleItem.times_used = 0 := by
  refine ⟨rfl, ?_, rfl⟩
  exact (submit_answer_found [("math", [sampleItem, sampleItem2])]
    { sampleSession with questions_asked := ["math_1"] } "math_1" 1 none
    sampleItem rfl rfl).2.2.2.1

/-- Witness for claim C9: the amended theorem applied to a concrete
submission carrying a nonzero response time, plus the mean property
evaluated on a single observation. -/
theorem submit_answer_updates_statistics_witness :
    (submit_answer [("math", [sampleItem, sampleItem2])]
        { sampleSession with questions_asked := ["math_1"] } "math_1" 1 (some 3)).1 =
      updatePools [("math", [sampleItem, sampleItem2])] "math" "math_1"
        (fun q => update_statistics q (1 == sampleItem.correct_answer) 3) ∧
    (applyUpdates sampleItem [(true, 3)]).avg_response_time = 3 := by
  have h := submit_answer_updates_statistics [("math", [sampleItem, sampleItem2])]
    { sampleSession with questions_asked := ["math_1"] } "math_1" 1 sampleItem rfl rfl
  refine ⟨h.2.2.1 3 (by norm_num), ?_⟩
  rw [h.2.1 sampleItem rfl [(true, 3)] (by simp)]
  norm_num

/-! ### Claim C8 -/

/-- With a nonempty candidate list, `_select_next_question` succeeds. -/
lemma select_next_question_ok_of_available {pools : Pools} {session : Session}
    (h : availableQuestions pools session ≠ []) :
    ∃ s' q, select_next_question pools session = .ok (s', q) := by
  unfold select_next_question
  cases hav : availableQuestions pools session with
  | nil => exact absurd hav h
  | cons q0 rest => exact ⟨_, _, rfl⟩

/-- Claim C8 (amended): the source invariant is off by one while a session
is open -- after every successful engine operation
`len(questions_asked) = len(responses) + 1` holds for an open session and
`len(questions_asked) = len(responses)` holds once it is complete
(`sessionInvariant`): a successful create establishes it (one asked item,
no responses, open), and a successful `submit_answer` preserves it. -/
theorem session_invariant_after_operations
    (pools : Pools) (session : Session) (question_id : String)
    (selected_answer : ℤ) (response_time : Option ℝ) :
    (∀ (user_id subject : String) (θ : ℝ) (s : Session) (q : QuestionItem),
      create_adaptive_assessment pools user_id subject θ = .ok (s, q) →
      sessionInvariant s ∧ s.is_complete = false) ∧
    (sessionInvariant session → session.is_complete = false →
      ∀ c : Bool,
        (submit_answer pools session question_id selected_answer
          response_time).2.2 = .ok c →
        sessionInvariant
          (submit_answer pools session question_id selected_answer
            response_time).2.1) := by
  constructor
  · intro user_id subject θ s q hok
    unfold create_adaptive_assessment at hok
    cases hsub : (if (pools.map Prod.fst).contains subject then some subject
        else (pools.map Prod.fst).head?) with
    | none => rw [hsub] at hok; cases hok
    | some subj =>
      rw [hsub] at hok
      have hp := select_next_question_preserves hok
      have hcomp : s.is_complete = false := by rw [hp.2.2.2.1]
      refine ⟨?_, hcomp⟩
      rw [sessionInvariant, hp.2.2.2.2.1, hp.1, hcomp]
      simp
  · intro hinv hnc c hok
    cases hfind : (poolOf pools session.subject).find?
        (fun q => q.item_id == question_id) with
    | none =>
      exfalso
      have hbad : (submit_answer pools session question_id selected_answer
          response_time).2.2 = .error .itemNotFound := by
        simp only [submit_answer, hnc, Bool.false_eq_true, if_false, hfind]
      rw [hbad] at hok
      cases hok
    | some question =>
      have h := submit_answer_found pools session question_id selected_answer
        response_time question hnc hfind
      have hresp : (submit_answer pools session question_id selected_answer
          response_time).2.1.responses.length = session.responses.length + 1 := by
        rw [h.1]; simp
      rw [sessionInvariant, hnc] at hinv
      simp only [Bool.false_eq_true, if_false] at hinv
      rcases h.2.2.2.2 with ⟨_, hcase⟩ | ⟨hout, _, _⟩
      · rcases hcase with ⟨hopen, hasked⟩ | ⟨hcomp, hasked⟩
        · rw [sessionInvariant, hopen, hasked, hresp, hinv]
          simp
        · rw [sessionInvariant, hcomp, hasked, hresp, hinv]
          simp
      · rw [hout] at hok
        cases hok

/-- Claim C8 counterexample: immediately after a successful
`create_adaptive_assessment` -- an observable point of the session
lifecycle -- the stored session has 0 responses but already 1 asked item
id, so `len(responses) == len(asked_item_ids)` does not hold at every
observable point. -/
theorem create_asked_responses_lengths_counterexample :
    (create_adaptive_assessment [("math", [sampleItem])] "u1" "math" 0).toOption.map
      (fun p => (p.1.responses.length, p.1.questions_asked.length)) =
      some (0, 1) := by
  obtain ⟨s', q, hsel⟩ := @select_next_question_ok_of_available
    [("math", [sampleItem])]
    { assessment_id := "assessment_u1", user_id := "u1",
      subject := "math", current_ability := 0, standard_error := 2,
      responses := [], questions_asked := [], current_question_index := 0,
      is_complete := false }
    (List.cons_ne_nil sampleItem [])
  have hcreate : create_adaptive_assessment [("math", [sampleItem])] "u1" "math" 0 =
      select_next_question [("math", [sampleItem])]
        { assessment_id := "assessment_u1", user_id := "u1", subject := "math",
          current_ability := 0, standard_error := 2, responses := [],
          questions_asked := [], current_question_index := 0,
          is_complete := false } := rfl
  rw [hcreate, hsel]
  have hp := select_next_question_preserves hsel
  show some (s'.responses.length, s'.questions_asked.length) = some (0, 1)
  rw [hp.1, hp.2.2.2.2.1]
  simp

/-- A session one answer away from the question cap, used to witness the
invariant through a completing submission. -/
noncomputable def sessionNearCap : Session := { sampleSession with
  responses := List.replicate 29 ⟨0, true, 1⟩
  questions_asked := List.replicate 30 "math_1" }

/-- Witness for claim C8: the amended theorem applied to a concrete
submission that completes the assessment at the question cap. -/
theorem session_invariant_witness :
    sessionInvariant (submit_answer [("math", [sampleItem])] sessionNearCap
      "math_1" 1 none).2.1 := by
  have hlen : (sessionAfterEstimate sessionNearCap sampleItem
      (1 == sampleItem.correct_answer)).responses.length = 30 := by
    rw [sessionAfterEstimate_responses]
    simp [sessionNearCap]
  have hsc : should_continue_assessment (sessionAfterEstimate sessionNearCap
      sampleItem (1 == sampleItem.correct_answer)) = false := by
    rw [should_continue_assessment, if_neg (by rw [hlen]; norm_num [minQuestions]),
      if_pos (by rw [hlen]; norm_num [maxQuestions])]
  have houtcome : (submit_answer [("math", [sampleItem])] sessionNearCap
      "math_1" 1 none).2.2 = .ok (1 == sampleItem.correct_answer) := by
    simp only [submit_answer,
      show sessionNearCap.is_complete = false from rfl, Bool.false_eq_true,
      if_false,
      show (poolOf [("math", [sampleItem])] sessionNearCap.subject).find?
        (fun q => q.item_id == "math_1") = some sampleItem from rfl,
      hsc]
  exact (session_invariant_after_operations [("math", [sampleItem])] sessionNearCap
    "math_1" 1 none).2 (by simp [sessionInvariant, sessionNearCap, sampleSession])
    rfl (1 == sampleItem.correct_answer) houtcome

/-! ### Claim C2 -/

/-- The Fisher information of an item at a given ability (the quantity the
selection loop maximises). -/
noncomputable def itemInformation (ability : ℝ) (q : QuestionItem) : ℝ :=
  information_function ability q.difficulty q.discrimination q.guessing

/-- `selectLoop` on an empty list returns the initial accumulator. -/
lemma selectLoop_nil (ability : ℝ) : selectLoop ability [] = (none, 0) := rfl

/-- One step of `selectLoop` from the right. -/
lemma selectLoop_concat (ability : ℝ) (qs : List QuestionItem) (q : QuestionItem) :
    selectLoop ability (qs ++ [q]) =
      if (selectLoop ability qs).2 < itemInformation ability q
      then (some q, itemInformation ability q) else selectLoop ability qs := by
  simp [selectLoop, List.foldl_append, itemInformation]

/-- Full characterisation of the strictly-greater selection scan: either no
item ever beat the initial `max_information = 0` (and every scanned item has
information at most `0`), or the final best is the first maximizer -- every
earlier item is strictly below it and every later one at most equal. -/
lemma selectLoop_characterisation (ability : ℝ) (qs : List QuestionItem) :
    (selectLoop ability qs = (none, 0) ∧ ∀ q ∈ qs, itemInformation ability q ≤ 0) ∨
    (∃ b l₁ l₂, selectLoop ability qs = (some b, itemInformation ability b) ∧
      qs = l₁ ++ b :: l₂ ∧ 0 < itemInformation ability b ∧
      (∀ q ∈ l₁, itemInformation ability q < itemInformation ability b) ∧
      (∀ q ∈ l₂, itemInformation ability q ≤ itemInformation ability b)) := by
  induction qs using List.reverseRecOn with
  | nil => exact Or.inl ⟨rfl, by simp⟩
  | append_singleton xs x ih =>
    rw [selectLoop_concat]
    rcases ih with ⟨hloop, hall⟩ | ⟨b, l₁, l₂, hloop, hdecomp, hpos, hlt, hle⟩
    · rw [hloop]
      dsimp only
      by_cases hx : (0:ℝ) < itemInformation ability x
      · rw [if_pos hx]
        exact Or.inr ⟨x, xs, [], rfl, by simp, hx,
          fun q hq => lt_of_le_of_lt (hall q hq) hx, by simp⟩
      · rw [if_neg hx]
        refine Or.inl ⟨rfl, fun q hq => ?_⟩
        rcases List.mem_append.mp hq with h1 | h2
        · exact hall q h1
        · rw [List.mem_singleton.mp h2]
          exact not_lt.mp hx
    · rw [hloop]
      dsimp only
      by_cases hx : itemInformation ability b < itemInformation ability x
      · rw [if_pos hx]
        refine Or.inr ⟨x, xs, [], rfl, by simp, lt_trans hpos hx, fun q hq => ?_,
          by simp⟩
        rw [hdecomp] at hq
        rcases List.mem_append.mp hq with h1 | h2
        · exact lt_trans (hlt q h1) hx
        · rcases List.mem_cons.mp h2 with rfl | h2'
          · exact hx
          · exact lt_of_le_of_lt (hle q h2') hx
      · rw [if_neg hx]
        refine Or.inr ⟨b, l₁, l₂ ++ [x], rfl, by rw [hdecomp]; simp, hpos, hlt,
          fun q hq => ?_⟩
        rcases List.mem_append.mp hq with h1 | h2
        · exact hle q h1
        · rw [List.mem_singleton.mp h2]
          exact not_lt.mp hx

/-- Claim C2: when at least one item of the session's subject has not yet
been asked, `_select_next_question` returns the first candidate (in bank
iteration order) maximising the Fisher information at the session's current
ability -- strictly-greater comparison, so earlier candidates tie-break --
and appends the chosen item's id to `questions_asked`; when every item of
the subject has been asked, it fails with the no-items-available error.
(Stated for banks whose guessing parameters are nonnegative, the documented
domain `c ∈ [0,1)` of the data model; the fallback branch of the source
picks the first candidate exactly when every candidate has zero
information, which is then also a first maximizer.) -/
theorem select_next_item_maximizes_information
    (pools : Pools) (session : Session)
    (hguess : ∀ q ∈ poolOf pools session.subject, 0 ≤ q.guessing) :
    (availableQuestions pools session = [] →
      select_next_question pools session = .error .noItemsAvailable) ∧
    (availableQuestions pools session ≠ [] →
      ∃ (chosen : QuestionItem) (l₁ l₂ : List QuestionItem),
        select_next_question pools session =
          .ok ({ session with
                  questions_asked := session.questions_asked ++ [chosen.item_id]
                  current_question_index := session.current_question_index + 1 },
               chosen) ∧
        availableQuestions pools session = l₁ ++ chosen :: l₂ ∧
        (∀ q ∈ l₁,
          information_function session.current_ability q.difficulty
              q.discrimination q.guessing <
            information_function session.current_ability chosen.difficulty
              chosen.discrimination chosen.guessing) ∧
        (∀ q ∈ availableQuestions pools session,
          information_function session.current_ability q.difficulty
              q.discrimination q.guessing ≤
            information_function session.current_ability chosen.difficulty
              chosen.discrimination chosen.guessing)) := by
  have hnonneg : ∀ q ∈ availableQuestions pools session,
      0 ≤ itemInformation session.current_ability q := by
    intro q hq
    exact information_nonneg _ _ _ _
      (hguess q (List.mem_of_mem_filter hq))
  constructor
  · intro hav
    unfold select_next_question
    rw [hav]
  · intro hne
    unfold select_next_question
    cases hav : availableQuestions pools session with
    | nil => exact absurd hav hne
    | cons q0 rest =>
      rw [hav] at hnonneg
      dsimp only
      rcases selectLoop_characterisation session.current_ability (q0 :: rest) with
        ⟨hloop, hall⟩ | ⟨b, l₁, l₂, hloop, hdecomp, _, hlt, hle⟩
      · rw [hloop]
        dsimp only
        refine ⟨q0, [], rest, rfl, rfl, by simp, fun q hq => ?_⟩
        have h0 : itemInformation session.current_ability q0 = 0 :=
          le_antisymm (hall q0 (by simp)) (hnonneg q0 (by simp))
        calc information_function session.current_ability q.difficulty
              q.discrimination q.guessing ≤ 0 := hall q hq
          _ = information_function session.current_ability q0.difficulty
              q0.discrimination q0.guessing := h0.symm
      · rw [hloop]
        dsimp only
        refine ⟨b, l₁, l₂, rfl, hdecomp, hlt, fun q hq => ?_⟩
        rw [hdecomp] at hq
        rcases List.mem_append.mp hq with h1 | h2
        · exact (hlt q h1).le
        · rcases List.mem_cons.mp h2 with rfl | h2'
          · exact le_refl _
          · exact hle q h2'

/-- Witness for claim C2: on a one-item bank the theorem pins the selection
down completely -- the single candidate is chosen and recorded. -/
theorem select_next_item_maximizes_information_witness :
    select_next_question [("math", [sampleItem])] sampleSession =
      .ok ({ sampleSession with
              questions_asked := ["math_1"]
              current_question_index := 1 }, sampleItem) := by
  have hguess : ∀ q ∈ poolOf [("math", [sampleItem])] sampleSession.subject,
      0 ≤ q.guessing := by
    intro q hq
    have hq' : q ∈ [sampleItem] := hq
    rw [List.mem_singleton.mp hq']
    norm_num [sampleItem]
  obtain ⟨chosen, l₁, l₂, hok, hdecomp, _, _⟩ :=
    (select_next_item_maximizes_information [("math", [sampleItem])] sampleSession
      hguess).2 (List.cons_ne_nil sampleItem [])
  have hdecomp' : [sampleItem] = l₁ ++ chosen :: l₂ := hdecomp
  cases l₁ with
  | cons a as => simp at hdecomp'
  | nil =>
    simp only [List.nil_append, List.cons.injEq] at hdecomp'
    rw [← hdecomp'.1] at hok
    exact hok

/-! ### Claim C1 -/

/-- The left fold of the source's accumulation loop equals the recursive
amended-reference accumulation, shifted by the starting accumulator. -/
lemma derivatives_foldl_eq (ability : ℝ) (l : List ResponseRecord) :
    ∀ a b : ℝ,
    l.foldl (fun acc r =>
      let p := probability_correct ability r.difficulty r.discrimination 0
      let q := 1 - p
      if 0.001 < p ∧ 0.001 < q then
        if r.correct then
          (acc.1 + r.discrimination * q,
           acc.2 - r.discrimination * r.discrimination * p * q)
        else
          (acc.1 - r.discrimination * p,
           acc.2 - r.discrimination * r.discrimination * p * q)
      else acc) (a, b) =
      (a + (derivativesSpecAmended ability l).1,
       b + (derivativesSpecAmended ability l).2) := by
  induction l with
  | nil =>
    intro a b
    simp [derivativesSpecAmended]
  | cons r rest ih =>
    intro a b
    rw [List.foldl_cons, derivativesSpecAmended]
    dsimp only
    by_cases hg : 0.001 < probability_correct ability r.difficulty r.discrimination 0 ∧
        0.001 < 1 - probability_correct ability r.difficulty r.discrimination 0
    · rw [if_pos hg, if_pos hg]
      by_cases hc : r.correct = true
      · rw [if_pos hc, ih]
        rw [gradContributionSpec]
        dsimp only
        rw [if_pos hc]
        simp only [Prod.mk.injEq]
        constructor <;> ring
      · rw [if_neg hc, ih]
        rw [gradContributionSpec]
        dsimp only
        rw [if_neg hc]
        simp only [Prod.mk.injEq]
        constructor <;> ring
    · rw [if_neg hg, if_neg hg, ih]

/-- The source's guarded accumulation equals the amended reference's. -/
lemma derivatives_eq_amended (ability : ℝ) (l : List ResponseRecord) :
    derivatives ability l = derivativesSpecAmended ability l := by
  rw [derivatives, derivatives_foldl_eq]
  simp

/-- One unfold of the source Newton-Raphson loop. -/
lemma newtonLoop_succ (fuel : ℕ) (ability : ℝ) (l : List ResponseRecord) :
    newtonLoop (fuel + 1) ability l =
      if 0.001 < |(derivatives ability l).2| then
        if |(derivatives ability l).1 / (derivatives ability l).2| < 0.001
        then ability - (derivatives ability l).1 / (derivatives ability l).2
        else newtonLoop fuel
          (ability - (derivatives ability l).1 / (derivatives ability l).2) l
      else ability := rfl

/-- One unfold of the reference Newton-Raphson loop. -/
lemma newtonLoopSpec_succ (fuel : ℕ) (ability : ℝ) (l : List ResponseRecord) :
    newtonLoopSpec (fuel + 1) ability l =
      if 0.001 < |(derivativesSpec ability l).2| then
        if |(derivativesSpec ability l).1 / (derivativesSpec ability l).2| < 0.001
        then ability - (derivativesSpec ability l).1 / (derivativesSpec ability l).2
        else newtonLoopSpec fuel
          (ability - (derivativesSpec ability l).1 / (derivativesSpec ability l).2) l
      else ability := rfl

/-- One unfold of the amended reference Newton-Raphson loop. -/
lemma newtonLoopSpecAmended_succ (fuel : ℕ) (ability : ℝ) (l : List ResponseRecord) :
    newtonLoopSpecAmended (fuel + 1) ability l =
      if 0.001 < |(derivativesSpecAmended ability l).2| then
        if |(derivativesSpecAmended ability l).1 /
            (derivativesSpecAmended ability l).2| < 0.001
        then ability - (derivativesSpecAmended ability l).1 /
          (derivativesSpecAmended ability l).2
        else newtonLoopSpecAmended fuel
          (ability - (derivativesSpecAmended ability l).1 /
            (derivativesSpecAmended ability l).2) l
      else ability := rfl

/-- The source Newton-Raphson loop equals the amended reference loop. -/
lemma newtonLoop_eq_amended (fuel : ℕ) :
    ∀ (ability : ℝ) (l : List ResponseRecord),
    newtonLoop fuel ability l = newtonLoopSpecAmended fuel ability l := by
  induction fuel with
  | zero => intro ability l; rfl
  | succ fuel ih =>
    intro ability l
    rw [newtonLoop_succ, newtonLoopSpecAmended_succ, derivatives_eq_amended]
    split_ifs
    · rfl
    · exact ih _ l
    · rfl

/-- Claim C1 (amended): `estimate_ability` equals the reference definition
amended in exactly one clause -- during each iteration's accumulation, a
response whose 2PL probability `p` at the current ability satisfies
`p ≤ 0.001` or `1 - p ≤ 0.001` contributes nothing to either derivative
(the source's "avoid division by zero" guard).  All other clauses of the
claim's reference definition hold as stated: `(initial_ability, 2.0)` on
empty responses, Newton-Raphson from `initial_ability` capped at 10
iterations, early exit without update when the second derivative's
magnitude is at most `0.001`, exit after an update smaller than `0.001` in
magnitude, and standard error `1/sqrt(total information)` when positive,
`2.0` otherwise. -/
theorem estimate_ability_matches_amended_reference
    (responses : List ResponseRecord) (initial_ability : ℝ) :
    estimate_ability responses initial_ability =
      estimate_abilitySpecAmended responses initial_ability := by
  cases responses with
  | nil => rfl
  | cons r rest =>
    show (newtonLoop 10 initial_ability (r :: rest),
        if 0 < totalInformation (newtonLoop 10 initial_ability (r :: rest)) (r :: rest)
        then 1 / Real.sqrt (totalInformation
          (newtonLoop 10 initial_ability (r :: rest)) (r :: rest)) else 2) =
      (newtonLoopSpecAmended 10 initial_ability (r :: rest),
        if 0 < totalInformation
          (newtonLoopSpecAmended 10 initial_ability (r :: rest)) (r :: rest)
        then 1 / Real.sqrt (totalInformation
          (newtonLoopSpecAmended 10 initial_ability (r :: rest)) (r :: rest)) else 2)
    rw [newtonLoop_eq_amended]

/-- The concrete response list separating the source estimator from the
claim's unguarded reference: two near-degenerate responses (difficulties 10
and -12, both skipped by the source's `p, q > 0.001` guard at ability 0)
and a cancelling correct/incorrect pair at difficulty 0. -/
noncomputable def extremeResponses : List ResponseRecord :=
  [⟨10, true, 1⟩, ⟨-12, false, 1⟩, ⟨0, true, 1⟩, ⟨0, false, 1⟩]

/-- Numeric bound: `exp 10 > 20000` (via `2.7^10 > 20000`). -/
lemma exp_ten_gt : (20000:ℝ) < Real.exp 10 := by
  have h1 : (2.7:ℝ) ≤ Real.exp 1 := by
    have := Real.exp_one_gt_d9
    linarith
  have h2 : (2.7:ℝ) ^ 10 ≤ Real.exp 1 ^ 10 := pow_le_pow_left₀ (by norm_num) h1 10
  have h3 : Real.exp 1 ^ 10 = Real.exp 10 := by
    rw [← Real.exp_nat_mul]
    norm_num
  calc (20000:ℝ) < 2.7 ^ 10 := by norm_num
    _ ≤ Real.exp 1 ^ 10 := h2
    _ = Real.exp 10 := h3

/-- Numeric bound: `exp 12 > 20000`. -/
lemma exp_twelve_gt : (20000:ℝ) < Real.exp 12 :=
  lt_trans exp_ten_gt (Real.exp_lt_exp.mpr (by norm_num))

/-- Strict monotonicity instance used for the sign of the reference
derivative. -/
lemma exp_ten_lt_exp_twelve : Real.exp 10 < Real.exp 12 :=
  Real.exp_lt_exp.mpr (by norm_num)

/-- `probability_correct` at ability 0 against difficulty 10. -/
lemma pc_at_ten : probability_correct 0 10 1 0 = (1 + Real.exp 10)⁻¹ := by
  rw [probability_correct, if_neg]
  · norm_num
  · rw [expOverflowBound]; norm_num

/-- `probability_correct` at ability 0 against difficulty -12. -/
lemma pc_at_neg_twelve : probability_correct 0 (-12) 1 0 = (1 + Real.exp (-12))⁻¹ := by
  rw [probability_correct, if_neg]
  · norm_num
  · rw [expOverflowBound]; norm_num

/-- `probability_correct` at ability 0 against difficulty 0. -/
lemma pc_at_zero : probability_correct 0 0 1 0 = 2⁻¹ := by
  rw [probability_correct, if_neg]
  · norm_num [Real.exp_zero]
  · rw [expOverflowBound]; norm_num

/-- The difficulty-10 response's probability is positive ... -/
lemma p_ten_pos : (0:ℝ) < (1 + Real.exp 10)⁻¹ := by positivity

/-- ... below the 1/20000 threshold ... -/
lemma p_ten_small : ((1 + Real.exp 10)⁻¹ : ℝ) < 20000⁻¹ := by
  apply inv_strictAnti₀ (by norm_num)
  linarith [exp_ten_gt]

/-- ... hence at most `0.001` (so the source skips this response). -/
lemma p_ten_le : ((1 + Real.exp 10)⁻¹ : ℝ) ≤ 0.001 := by
  have h := p_ten_small
  have h2 : ((20000:ℝ))⁻¹ < 0.001 := by norm_num
  linarith

/-- ... and below 1. -/
lemma p_ten_lt_one : ((1 + Real.exp 10)⁻¹ : ℝ) < 1 :=
  inv_lt_one_of_one_lt₀ (by linarith [Real.exp_pos (10:ℝ)])

/-- Complement form of the difficulty `-12` response's `q`. -/
lemma q_twelve_eq : 1 - (1 + Real.exp (-12))⁻¹ = ((Real.exp 12 + 1)⁻¹ : ℝ) := by
  rw [Real.exp_neg]
  have h : (0:ℝ) < Real.exp 12 := Real.exp_pos _
  have h1 : (1:ℝ) + (Real.exp 12)⁻¹ ≠ 0 := by positivity
  have h2 : (Real.exp 12 + 1 : ℝ) ≠ 0 := by positivity
  field_simp

/-- The difficulty `-12` response's `q` is positive ... -/
lemma q_twelve_pos : (0:ℝ) < 1 - (1 + Real.exp (-12))⁻¹ := by
  rw [q_twelve_eq]; positivity

/-- ... below the 1/20000 threshold ... -/
lemma q_twelve_small : (1 - (1 + Real.exp (-12))⁻¹ : ℝ) < 20000⁻¹ := by
  rw [q_twelve_eq]
  apply inv_strictAnti₀ (by norm_num)
  linarith [exp_twelve_gt]

/-- ... hence at most `0.001` (so the source skips this response too). -/
lemma q_twelve_le : (1 - (1 + Real.exp (-12))⁻¹ : ℝ) ≤ 0.001 := by
  have h := q_twelve_small
  have h2 : ((20000:ℝ))⁻¹ < 0.001 := by norm_num
  linarith

/-- The difficulty `-12` response's probability is positive. -/
lemma p_twelve_pos : (0:ℝ) < (1 + Real.exp (-12))⁻¹ := by positivity

/-- Comparison driving the nonzero reference step: `q(-12) < p(10)`. -/
lemma q_twelve_lt_p_ten :
    (1 - (1 + Real.exp (-12))⁻¹ : ℝ) < (1 + Real.exp 10)⁻¹ := by
  rw [q_twelve_eq]
  apply inv_strictAnti₀ (by positivity)
  linarith [exp_ten_lt_exp_twelve]

/-- The source's guarded accumulation on the concrete list: both extreme
responses are skipped and the difficulty-0 pair cancels. -/
lemma derivatives_extreme : derivatives 0 extremeResponses = ((0:ℝ), -(2⁻¹:ℝ)) := by
  rw [derivatives, extremeResponses]
  rw [List.foldl_cons, List.foldl_cons, List.foldl_cons, List.foldl_cons,
    List.foldl_nil]
  dsimp only
  rw [pc_at_ten, pc_at_neg_twelve, pc_at_zero]
  have h1 : ¬((0.001:ℝ) < (1 + Real.exp 10)⁻¹ ∧
      (0.001:ℝ) < 1 - (1 + Real.exp 10)⁻¹) :=
    fun hc => absurd hc.1 (not_lt.mpr p_ten_le)
  have h2 : ¬((0.001:ℝ) < (1 + Real.exp (-12))⁻¹ ∧
      (0.001:ℝ) < 1 - (1 + Real.exp (-12))⁻¹) :=
    fun hc => absurd hc.2 (not_lt.mpr q_twelve_le)
  rw [if_neg h1, if_neg h2]
  norm_num

/-- The unguarded reference accumulation on the concrete list: the extreme
responses contribute. -/
lemma derivativesSpec_extreme :
    derivativesSpec 0 extremeResponses =
      ((1 - (1 + Real.exp (-12))⁻¹) - (1 + Real.exp 10)⁻¹,
       -((1 + Real.exp 10)⁻¹ * (1 - (1 + Real.exp 10)⁻¹))
         - (1 + Real.exp (-12))⁻¹ * (1 - (1 + Real.exp (-12))⁻¹) - 2⁻¹) := by
  rw [extremeResponses]
  simp only [derivativesSpec, gradContributionSpec]
  rw [pc_at_ten, pc_at_neg_twelve, pc_at_zero]
  norm_num
  constructor <;> ring

/-- The reference second derivative stays at or below `-1/2`. -/
lemma derivativesSpec_extreme_snd_le :
    (derivativesSpec 0 extremeResponses).2 ≤ -(2⁻¹:ℝ) := by
  rw [derivativesSpec_extreme]
  dsimp only
  have h1 : (0:ℝ) ≤ (1 + Real.exp 10)⁻¹ * (1 - (1 + Real.exp 10)⁻¹) :=
    mul_nonneg p_ten_pos.le (by linarith [p_ten_lt_one])
  have h2 : (0:ℝ) ≤ (1 + Real.exp (-12))⁻¹ * (1 - (1 + Real.exp (-12))⁻¹) :=
    mul_nonneg p_twelve_pos.le q_twelve_pos.le
  linarith

/-- The reference first derivative is strictly negative ... -/
lemma derivativesSpec_extreme_fst_neg : (derivativesSpec 0 extremeResponses).1 < 0 := by
  rw [derivativesSpec_extreme]
  dsimp only
  linarith [q_twelve_lt_p_ten]

/-- ... and tiny in magnitude. -/
lemma derivativesSpec_extreme_fst_abs :
    |(derivativesSpec 0 extremeResponses).1| < 20000⁻¹ := by
  rw [derivativesSpec_extreme]
  dsimp only
  rw [abs_lt]
  constructor
  · linarith [q_twelve_pos, p_ten_small]
  · linarith [q_twelve_small, p_ten_pos]

/-- The source loop on the concrete list: the first Newton step is exactly
zero (the difficulty-0 pair cancels, the extremes are skipped), so the loop
exits after one iteration with ability `0`. -/
lemma newtonLoop_extreme : newtonLoop 10 0 extremeResponses = 0 := by
  rw [show (10:ℕ) = 9 + 1 from rfl, newtonLoop_succ, derivatives_extreme]
  dsimp only
  simp only [zero_div, abs_zero, abs_neg, sub_zero]
  norm_num

/-- The reference loop on the concrete list: the second derivative is
clearly steep and the Newton step, though nonzero, is below the `0.001`
convergence threshold, so the loop exits after one (nontrivial) update. -/
lemma newtonLoopSpec_extreme :
    newtonLoopSpec 10 0 extremeResponses =
      0 - (derivativesSpec 0 extremeResponses).1 /
        (derivativesSpec 0 extremeResponses).2 := by
  have hneg : (derivativesSpec 0 extremeResponses).2 < 0 :=
    lt_of_le_of_lt derivativesSpec_extreme_snd_le (by norm_num)
  have h2abs : (2⁻¹:ℝ) ≤ |(derivativesSpec 0 extremeResponses).2| := by
    rw [abs_of_neg hneg]
    linarith [derivativesSpec_extreme_snd_le]
  have habs2 : (0.001:ℝ) < |(derivativesSpec 0 extremeResponses).2| := by
    norm_num at h2abs ⊢
    linarith
  have hdelta : |(derivativesSpec 0 extremeResponses).1 /
      (derivativesSpec 0 extremeResponses).2| < 0.001 := by
    rw [abs_div]
    have hle : |(derivativesSpec 0 extremeResponses).1| /
        |(derivativesSpec 0 extremeResponses).2| ≤
        |(derivativesSpec 0 extremeResponses).1| / 2⁻¹ :=
      div_le_div_of_nonneg_left (abs_nonneg _) (by norm_num) h2abs
    have heq : |(derivativesSpec 0 extremeResponses).1| / 2⁻¹ =
        2 * |(derivativesSpec 0 extremeResponses).1| := by ring
    have hsmall := derivativesSpec_extreme_fst_abs
    rw [heq] at hle
    have : (2:ℝ) * |(derivativesSpec 0 extremeResponses).1| < 2 * 20000⁻¹ := by
      linarith
    norm_num at this
    linarith
  rw [show (10:ℕ) = 9 + 1 from rfl, newtonLoopSpec_succ, if_pos habs2,
    if_pos hdelta]

/-- Claim C1 counterexample: on the concrete four-response list the source
estimator returns ability exactly `0` (it skips both extreme responses and
the remaining pair cancels), while the claim's reference definition --
which accumulates over the full response list with no skipping -- takes a
nonzero first Newton step and returns a different ability, so
`estimate_ability` does not equal the reference definition as stated. -/
theorem estimate_ability_unguarded_reference_counterexample :
    estimate_ability extremeResponses 0 ≠ estimate_abilitySpec extremeResponses 0 := by
  intro h
  have h1 : (estimate_ability extremeResponses 0).1 =
      (estimate_abilitySpec extremeResponses 0).1 := by rw [h]
  have hc : (estimate_ability extremeResponses 0).1 =
      newtonLoop 10 0 extremeResponses := rfl
  have hs : (estimate_abilitySpec extremeResponses 0).1 =
      newtonLoopSpec 10 0 extremeResponses := rfl
  rw [hc, hs, newtonLoop_extreme, newtonLoopSpec_extreme] at h1
  have hD2ne : (derivativesSpec 0 extremeResponses).2 ≠ 0 := by
    intro h0
    have := derivativesSpec_extreme_snd_le
    rw [h0] at this
    norm_num at this
  have hD1ne : (derivativesSpec 0 extremeResponses).1 ≠ 0 :=
    ne_of_lt derivativesSpec_extreme_fst_neg
  have hzero : (derivativesSpec 0 extremeResponses).1 /
      (derivativesSpec 0 extremeResponses).2 = 0 := by linarith
  exact (div_ne_zero hD1ne hD2ne) hzero
